import Mathlib

/-!
# KiCad file-dialog wildcards

A shallow embedding of `common/wildcards_and_files_ext.cpp`: the extension
formatter `formatWildcardExt`, the variadic builder `AddFileExtListToFilter`
and the category wildcard accessors built on it, followed by the properties
proved about them.

Modelling choices:
* a `wxString` is the list of its characters;
* the preprocessor test `defined( __WXGTK__ )` is the Boolean `gtk`;
* the wxWidgets character functions `wxIsalpha`, `wxTolower`, `wxToupper`
  are library code that follows the process locale, so they are a parameter
  (`WxCType`); `cLocale` is their behaviour in the "C" locale;
* the translation macro `_( )` is a parameter `tr`;
* a variadic call is the declared count `aArgCnt` together with the list of
  arguments really passed, each `const char*` argument taken as the wxString
  it converts to; reading an argument that was not passed is undefined
  behaviour and is modelled as `none`.
-/

namespace KiCad

/-- A wxString, seen as the sequence of its characters. -/
abbrev wxString := List Char

/-- The character classification and case functions of wxWidgets used by
`formatWildcardExt`. They wrap `iswalpha`, `towlower` and `towupper`, whose
results depend on the locale, and are therefore kept abstract. -/
structure WxCType where
  wxIsalpha : Char → Bool
  wxTolower : Char → Char
  wxToupper : Char → Char

/-- The character functions in the "C" locale: only the ASCII letters are
alphabetic and only they change under a case conversion. -/
def cLocale : WxCType := ⟨Char.isAlpha, Char.toLower, Char.toUpper⟩

/-- The character functions in a Turkish locale such as tr_TR: besides the ASCII
letters the dotted capital İ (U+0130) and the dotless small ı (U+0131) are
alphabetic, the lower case of I is ı and the upper case of i is İ. -/
def turkishLocale : WxCType where
  wxIsalpha c := c.isAlpha || c == 'İ' || c == 'ı'
  wxTolower c := if c = 'I' then 'ı' else if c = 'İ' then 'i' else c.toLower
  wxToupper c := if c = 'i' then 'İ' else if c = 'ı' then 'I' else c.toUpper

/-- Source lines 50-69. With `gtk` the loop `for( auto ch : aWildcard )` appends to
`wc` either `wxString::Format( "[%c%c]", wxTolower( ch ), wxToupper( ch ) )`
or `ch`; without it `wc = aWildcard`. -/
def formatWildcardExt (T : WxCType) (gtk : Bool) (aWildcard : wxString) : wxString :=
  if gtk then
    aWildcard.foldl
      (fun wc ch =>
        if T.wxIsalpha ch then wc ++ ['[', T.wxTolower ch, T.wxToupper ch, ']']
        else wc ++ [ch])
      []
  else
    aWildcard

/-- Source lines 80-84, the loop adding the extensions to the info message. The
first argument is the number of iterations still to run, the second the part
of the argument list `va_arg` has not consumed yet; `va_arg` on an exhausted
list is undefined behaviour, modelled as `none`. -/
def infoLoop : Nat → List wxString → wxString → Option wxString
  | 0, _, files_filter => some files_filter
  | _ + 1, [], _ => none
  | n + 1, ext :: args, files_filter =>
    infoLoop n args (files_filter ++ " *.".toList ++ ext)

/-- Source lines 91-99, the loop adding the formatted extensions to the filter
list. The arguments are as in `infoLoop`, with the loop index `ii` explicit
because the body tests `ii > 0`. -/
def filterLoop (T : WxCType) (gtk : Bool) :
    Nat → Nat → List wxString → wxString → Option wxString
  | 0, _, _, files_filter => some files_filter
  | _ + 1, _, [], _ => none
  | n + 1, ii, ext :: args, files_filter =>
    let files_filter := if ii > 0 then files_filter ++ ";*.".toList else files_filter
    filterLoop T gtk n (ii + 1) args (files_filter ++ formatWildcardExt T gtk ext)

/-- Source lines 72-104. `args` are the variadic arguments of the call. Each loop
`for( int ii = 0; ii < aArgCnt; ii++ )` runs `aArgCnt.toNat` times (not at all
when `aArgCnt ≤ 0`), and the second `va_start` restarts at the first argument. -/
def AddFileExtListToFilter (T : WxCType) (gtk : Bool) (aArgCnt : Int)
    (args : List wxString) : Option wxString :=
  match infoLoop aArgCnt.toNat args " (".toList with
  | none => none
  | some files_filter =>
    filterLoop T gtk aArgCnt.toNat 0 args (files_filter ++ ")|*.".toList)

/-! ## Extension constants (source lines 107-143) -/

def SchematicSymbolFileExtension : wxString := "sym".toList
def SchematicLibraryFileExtension : wxString := "lib".toList
def SchematicBackupFileExtension : wxString := "bak".toList
def VrmlFileExtension : wxString := "wrl".toList
def ProjectFileExtension : wxString := "pro".toList
def SchematicFileExtension : wxString := "sch".toList
def NetlistFileExtension : wxString := "net".toList
def ComponentFileExtension : wxString := "cmp".toList
def GerberFileExtension : wxString := "gbr".toList
def GerberJobFileExtension : wxString := "gbrjob".toList
def HtmlFileExtension : wxString := "html".toList
def LegacyPcbFileExtension : wxString := "brd".toList
def KiCadPcbFileExtension : wxString := "kicad_pcb".toList
def PageLayoutDescrFileExtension : wxString := "kicad_wks".toList
def PdfFileExtension : wxString := "pdf".toList
def MacrosFileExtension : wxString := "mcr".toList
def DrillFileExtension : wxString := "drl".toList
def SVGFileExtension : wxString := "svg".toList
def ReportFileExtension : wxString := "rpt".toList
def FootprintPlaceFileExtension : wxString := "pos".toList
def KiCadLib3DShapesPathExtension : wxString := "3dshapes".toList
def KiCadFootprintLibPathExtension : wxString := "pretty".toList
def LegacyFootprintLibPathExtension : wxString := "mod".toList
def EagleFootprintLibPathExtension : wxString := "lbr".toList
def KiCadFootprintFileExtension : wxString := "kicad_mod".toList
def GedaPcbFootprintLibFileExtension : wxString := "fp".toList
def SpecctraDsnFileExtension : wxString := "dsn".toList
def IpcD356FileExtension : wxString := "d356".toList
def PngFileExtension : wxString := "png".toList
def JpegFileExtension : wxString := "jpg".toList

/-! ## Category wildcard accessors (source lines 149-418)

Each accessor is `_( description ) + AddFileExtListToFilter( count, exts... )`. -/

def SchematicSymbolFileWildcard (tr : wxString → wxString) (T : WxCType) (gtk : Bool) : Option wxString :=
  (AddFileExtListToFilter T gtk 1 ["sym".toList]).map (tr "KiCad drawing symbol files".toList ++ ·)

def SchematicLibraryFileWildcard (tr : wxString → wxString) (T : WxCType) (gtk : Bool) : Option wxString :=
  (AddFileExtListToFilter T gtk 1 ["lib".toList]).map (tr "KiCad symbol library files".toList ++ ·)

def ProjectFileWildcard (tr : wxString → wxString) (T : WxCType) (gtk : Bool) : Option wxString :=
  (AddFileExtListToFilter T gtk 1 ["pro".toList]).map (tr "KiCad project files".toList ++ ·)

def SchematicFileWildcard (tr : wxString → wxString) (T : WxCType) (gtk : Bool) : Option wxString :=
  (AddFileExtListToFilter T gtk 1 ["sch".toList]).map (tr "KiCad schematic files".toList ++ ·)

def EagleSchematicFileWildcard (tr : wxString → wxString) (T : WxCType) (gtk : Bool) : Option wxString :=
  (AddFileExtListToFilter T gtk 1 ["sch".toList]).map (tr "Eagle XML schematic files".toList ++ ·)

def EagleFilesWildcard (tr : wxString → wxString) (T : WxCType) (gtk : Bool) : Option wxString :=
  (AddFileExtListToFilter T gtk 2 ["sch".toList, "brd".toList]).map (tr "Eagle XML files".toList ++ ·)

def NetlistFileWildcard (tr : wxString → wxString) (T : WxCType) (gtk : Bool) : Option wxString :=
  (AddFileExtListToFilter T gtk 1 ["net".toList]).map (tr "KiCad netlist files".toList ++ ·)

def GerberFileWildcard (tr : wxString → wxString) (T : WxCType) (gtk : Bool) : Option wxString :=
  (AddFileExtListToFilter T gtk 1 ["pho".toList]).map (tr "Gerber files".toList ++ ·)

def LegacyPcbFileWildcard (tr : wxString → wxString) (T : WxCType) (gtk : Bool) : Option wxString :=
  (AddFileExtListToFilter T gtk 1 ["brd".toList]).map (tr "KiCad printed circuit board files".toList ++ ·)

def EaglePcbFileWildcard (tr : wxString → wxString) (T : WxCType) (gtk : Bool) : Option wxString :=
  (AddFileExtListToFilter T gtk 1 ["brd".toList]).map (tr "Eagle ver. 6.x XML PCB files".toList ++ ·)

def PCadPcbFileWildcard (tr : wxString → wxString) (T : WxCType) (gtk : Bool) : Option wxString :=
  (AddFileExtListToFilter T gtk 1 ["pcb".toList]).map (tr "P-Cad 200x ASCII PCB files".toList ++ ·)

def PcbFileWildcard (tr : wxString → wxString) (T : WxCType) (gtk : Bool) : Option wxString :=
  (AddFileExtListToFilter T gtk 1 ["kicad_pcb".toList]).map (tr "KiCad printed circuit board files".toList ++ ·)

def KiCadFootprintLibFileWildcard (tr : wxString → wxString) (T : WxCType) (gtk : Bool) : Option wxString :=
  (AddFileExtListToFilter T gtk 1 ["kicad_mod".toList]).map (tr "KiCad footprint files".toList ++ ·)

def KiCadFootprintLibPathWildcard (tr : wxString → wxString) (T : WxCType) (gtk : Bool) : Option wxString :=
  (AddFileExtListToFilter T gtk 1 ["pretty".toList]).map (tr "KiCad footprint library paths".toList ++ ·)

def LegacyFootprintLibPathWildcard (tr : wxString → wxString) (T : WxCType) (gtk : Bool) : Option wxString :=
  (AddFileExtListToFilter T gtk 1 ["mod".toList]).map (tr "Legacy footprint library files".toList ++ ·)

def EagleFootprintLibPathWildcard (tr : wxString → wxString) (T : WxCType) (gtk : Bool) : Option wxString :=
  (AddFileExtListToFilter T gtk 1 ["lbr".toList]).map (tr "Eagle ver. 6.x XML library files".toList ++ ·)

def GedaPcbFootprintLibFileWildcard (tr : wxString → wxString) (T : WxCType) (gtk : Bool) : Option wxString :=
  (AddFileExtListToFilter T gtk 1 ["fp".toList]).map (tr "Geda PCB footprint library files".toList ++ ·)

def PageLayoutDescrFileWildcard (tr : wxString → wxString) (T : WxCType) (gtk : Bool) : Option wxString :=
  (AddFileExtListToFilter T gtk 1 ["kicad_wks".toList]).map (tr "Page layout design files".toList ++ ·)

def ComponentFileWildcard (tr : wxString → wxString) (T : WxCType) (gtk : Bool) : Option wxString :=
  (AddFileExtListToFilter T gtk 1 ["cmp".toList]).map (tr "KiCad symbol footprint link files".toList ++ ·)

def DrillFileWildcard (tr : wxString → wxString) (T : WxCType) (gtk : Bool) : Option wxString :=
  (AddFileExtListToFilter T gtk 3 ["drl".toList, "nc".toList, "xnc".toList]).map (tr "Drill files".toList ++ ·)

def SVGFileWildcard (tr : wxString → wxString) (T : WxCType) (gtk : Bool) : Option wxString :=
  (AddFileExtListToFilter T gtk 1 ["svg".toList]).map (tr "SVG files".toList ++ ·)

def HtmlFileWildcard (tr : wxString → wxString) (T : WxCType) (gtk : Bool) : Option wxString :=
  (AddFileExtListToFilter T gtk 2 ["htm".toList, "html".toList]).map (tr "HTML files".toList ++ ·)

def CsvFileWildcard (tr : wxString → wxString) (T : WxCType) (gtk : Bool) : Option wxString :=
  (AddFileExtListToFilter T gtk 1 ["csv".toList]).map (tr "CSV Files".toList ++ ·)

def PdfFileWildcard (tr : wxString → wxString) (T : WxCType) (gtk : Bool) : Option wxString :=
  (AddFileExtListToFilter T gtk 1 ["pdf".toList]).map (tr "Portable document format files".toList ++ ·)

def PSFileWildcard (tr : wxString → wxString) (T : WxCType) (gtk : Bool) : Option wxString :=
  (AddFileExtListToFilter T gtk 1 ["ps".toList]).map (tr "PostScript files".toList ++ ·)

def ReportFileWildcard (tr : wxString → wxString) (T : WxCType) (gtk : Bool) : Option wxString :=
  (AddFileExtListToFilter T gtk 1 ["rpt".toList]).map (tr "Report files".toList ++ ·)

def FootprintPlaceFileWildcard (tr : wxString → wxString) (T : WxCType) (gtk : Bool) : Option wxString :=
  (AddFileExtListToFilter T gtk 1 ["pos".toList]).map (tr "Footprint place files".toList ++ ·)

def Shapes3DFileWildcard (tr : wxString → wxString) (T : WxCType) (gtk : Bool) : Option wxString :=
  (AddFileExtListToFilter T gtk 2 ["wrl".toList, "x3d".toList]).map (tr "VRML and X3D files".toList ++ ·)

def IDF3DFileWildcard (tr : wxString → wxString) (T : WxCType) (gtk : Bool) : Option wxString :=
  (AddFileExtListToFilter T gtk 1 ["idf".toList]).map (tr "IDFv3 footprint files".toList ++ ·)

def TextFileWildcard (tr : wxString → wxString) (T : WxCType) (gtk : Bool) : Option wxString :=
  (AddFileExtListToFilter T gtk 1 ["txt".toList]).map (tr "Text files".toList ++ ·)

def ModLegacyExportFileWildcard (tr : wxString → wxString) (T : WxCType) (gtk : Bool) : Option wxString :=
  (AddFileExtListToFilter T gtk 1 ["emp".toList]).map (tr "Legacy footprint export files".toList ++ ·)

def ErcFileWildcard (tr : wxString → wxString) (T : WxCType) (gtk : Bool) : Option wxString :=
  (AddFileExtListToFilter T gtk 1 ["erc".toList]).map (tr "Electronic rule check file".toList ++ ·)

def SpiceLibraryFileWildcard (tr : wxString → wxString) (T : WxCType) (gtk : Bool) : Option wxString :=
  (AddFileExtListToFilter T gtk 1 ["lib".toList]).map (tr "Spice library file".toList ++ ·)

def SpiceNetlistFileWildcard (tr : wxString → wxString) (T : WxCType) (gtk : Bool) : Option wxString :=
  (AddFileExtListToFilter T gtk 1 ["cir".toList]).map (tr "SPICE netlist file".toList ++ ·)

def CadstarNetlistFileWildcard (tr : wxString → wxString) (T : WxCType) (gtk : Bool) : Option wxString :=
  (AddFileExtListToFilter T gtk 1 ["frp".toList]).map (tr "CadStar netlist file".toList ++ ·)

def EquFileWildcard (tr : wxString → wxString) (T : WxCType) (gtk : Bool) : Option wxString :=
  (AddFileExtListToFilter T gtk 1 ["equ".toList]).map (tr "Symbol footprint association files".toList ++ ·)

def ZipFileWildcard (tr : wxString → wxString) (T : WxCType) (gtk : Bool) : Option wxString :=
  (AddFileExtListToFilter T gtk 1 ["zip".toList]).map (tr "Zip file".toList ++ ·)

def GencadFileWildcard (tr : wxString → wxString) (T : WxCType) (gtk : Bool) : Option wxString :=
  (AddFileExtListToFilter T gtk 1 ["cad".toList]).map (tr "GenCAD 1.4 board files".toList ++ ·)

def DxfFileWildcard (tr : wxString → wxString) (T : WxCType) (gtk : Bool) : Option wxString :=
  (AddFileExtListToFilter T gtk 1 ["dxf".toList]).map (tr "DXF Files".toList ++ ·)

def GerberJobFileWildcard (tr : wxString → wxString) (T : WxCType) (gtk : Bool) : Option wxString :=
  (AddFileExtListToFilter T gtk 1 ["gbrjob".toList]).map (tr "Gerber job file".toList ++ ·)

def SpecctraDsnFileWildcard (tr : wxString → wxString) (T : WxCType) (gtk : Bool) : Option wxString :=
  (AddFileExtListToFilter T gtk 1 ["dsn".toList]).map (tr "Specctra DSN file".toList ++ ·)

def IpcD356FileWildcard (tr : wxString → wxString) (T : WxCType) (gtk : Bool) : Option wxString :=
  (AddFileExtListToFilter T gtk 1 ["d356".toList]).map (tr "IPC-D-356 Test Files".toList ++ ·)

def WorkbookFileWildcard (tr : wxString → wxString) (T : WxCType) (gtk : Bool) : Option wxString :=
  (AddFileExtListToFilter T gtk 1 ["wbk".toList]).map (tr "Workbook file".toList ++ ·)

def PngFileWildcard (tr : wxString → wxString) (T : WxCType) (gtk : Bool) : Option wxString :=
  (AddFileExtListToFilter T gtk 1 ["png".toList]).map (tr "PNG file".toList ++ ·)

def JpegFileWildcard (tr : wxString → wxString) (T : WxCType) (gtk : Bool) : Option wxString :=
  (AddFileExtListToFilter T gtk 2 ["jpg".toList, "jpeg".toList]).map (tr "Jpeg file".toList ++ ·)


/-- The call data of one accessor: the description handed to `_( )`, the
count argument and the extension strings actually passed. -/
structure WildcardCall where
  descr : wxString
  aArgCnt : Int
  args : List wxString
deriving DecidableEq

/-- Run an accessor from its call data. -/
def WildcardCall.run (c : WildcardCall) (tr : wxString → wxString) (T : WxCType)
    (gtk : Bool) : Option wxString :=
  (AddFileExtListToFilter T gtk c.aArgCnt c.args).map (tr c.descr ++ ·)

/-- The call made by each accessor, in source order. -/
def accessorCalls : List WildcardCall :=
  [⟨"KiCad drawing symbol files".toList, 1, ["sym".toList]⟩,
   ⟨"KiCad symbol library files".toList, 1, ["lib".toList]⟩,
   ⟨"KiCad project files".toList, 1, ["pro".toList]⟩,
   ⟨"KiCad schematic files".toList, 1, ["sch".toList]⟩,
   ⟨"Eagle XML schematic files".toList, 1, ["sch".toList]⟩,
   ⟨"Eagle XML files".toList, 2, ["sch".toList, "brd".toList]⟩,
   ⟨"KiCad netlist files".toList, 1, ["net".toList]⟩,
   ⟨"Gerber files".toList, 1, ["pho".toList]⟩,
   ⟨"KiCad printed circuit board files".toList, 1, ["brd".toList]⟩,
   ⟨"Eagle ver. 6.x XML PCB files".toList, 1, ["brd".toList]⟩,
   ⟨"P-Cad 200x ASCII PCB files".toList, 1, ["pcb".toList]⟩,
   ⟨"KiCad printed circuit board files".toList, 1, ["kicad_pcb".toList]⟩,
   ⟨"KiCad footprint files".toList, 1, ["kicad_mod".toList]⟩,
   ⟨"KiCad footprint library paths".toList, 1, ["pretty".toList]⟩,
   ⟨"Legacy footprint library files".toList, 1, ["mod".toList]⟩,
   ⟨"Eagle ver. 6.x XML library files".toList, 1, ["lbr".toList]⟩,
   ⟨"Geda PCB footprint library files".toList, 1, ["fp".toList]⟩,
   ⟨"Page layout design files".toList, 1, ["kicad_wks".toList]⟩,
   ⟨"KiCad symbol footprint link files".toList, 1, ["cmp".toList]⟩,
   ⟨"Drill files".toList, 3, ["drl".toList, "nc".toList, "xnc".toList]⟩,
   ⟨"SVG files".toList, 1, ["svg".toList]⟩,
   ⟨"HTML files".toList, 2, ["htm".toList, "html".toList]⟩,
   ⟨"CSV Files".toList, 1, ["csv".toList]⟩,
   ⟨"Portable document format files".toList, 1, ["pdf".toList]⟩,
   ⟨"PostScript files".toList, 1, ["ps".toList]⟩,
   ⟨"Report files".toList, 1, ["rpt".toList]⟩,
   ⟨"Footprint place files".toList, 1, ["pos".toList]⟩,
   ⟨"VRML and X3D files".toList, 2, ["wrl".toList, "x3d".toList]⟩,
   ⟨"IDFv3 footprint files".toList, 1, ["idf".toList]⟩,
   ⟨"Text files".toList, 1, ["txt".toList]⟩,
   ⟨"Legacy footprint export files".toList, 1, ["emp".toList]⟩,
   ⟨"Electronic rule check file".toList, 1, ["erc".toList]⟩,
   ⟨"Spice library file".toList, 1, ["lib".toList]⟩,
   ⟨"SPICE netlist file".toList, 1, ["cir".toList]⟩,
   ⟨"CadStar netlist file".toList, 1, ["frp".toList]⟩,
   ⟨"Symbol footprint association files".toList, 1, ["equ".toList]⟩,
   ⟨"Zip file".toList, 1, ["zip".toList]⟩,
   ⟨"GenCAD 1.4 board files".toList, 1, ["cad".toList]⟩,
   ⟨"DXF Files".toList, 1, ["dxf".toList]⟩,
   ⟨"Gerber job file".toList, 1, ["gbrjob".toList]⟩,
   ⟨"Specctra DSN file".toList, 1, ["dsn".toList]⟩,
   ⟨"IPC-D-356 Test Files".toList, 1, ["d356".toList]⟩,
   ⟨"Workbook file".toList, 1, ["wbk".toList]⟩,
   ⟨"PNG file".toList, 1, ["png".toList]⟩,
   ⟨"Jpeg file".toList, 2, ["jpg".toList, "jpeg".toList]⟩]

/-- The 45 accessors, in source order. -/
def accessors : List ((wxString → wxString) → WxCType → Bool → Option wxString) :=
  [SchematicSymbolFileWildcard, SchematicLibraryFileWildcard, ProjectFileWildcard,
   SchematicFileWildcard, EagleSchematicFileWildcard, EagleFilesWildcard, NetlistFileWildcard,
   GerberFileWildcard, LegacyPcbFileWildcard, EaglePcbFileWildcard, PCadPcbFileWildcard,
   PcbFileWildcard, KiCadFootprintLibFileWildcard, KiCadFootprintLibPathWildcard,
   LegacyFootprintLibPathWildcard, EagleFootprintLibPathWildcard,
   GedaPcbFootprintLibFileWildcard, PageLayoutDescrFileWildcard, ComponentFileWildcard,
   DrillFileWildcard, SVGFileWildcard, HtmlFileWildcard, CsvFileWildcard, PdfFileWildcard,
   PSFileWildcard, ReportFileWildcard, FootprintPlaceFileWildcard, Shapes3DFileWildcard,
   IDF3DFileWildcard, TextFileWildcard, ModLegacyExportFileWildcard, ErcFileWildcard,
   SpiceLibraryFileWildcard, SpiceNetlistFileWildcard, CadstarNetlistFileWildcard,
   EquFileWildcard, ZipFileWildcard, GencadFileWildcard, DxfFileWildcard,
   GerberJobFileWildcard, SpecctraDsnFileWildcard, IpcD356FileWildcard, WorkbookFileWildcard,
   PngFileWildcard, JpegFileWildcard]

/-! ## Pattern semantics

Used to state what the bracketed form of an extension achieves. -/

theorem foldl_bracket (T : WxCType) (E acc : wxString) :
    E.foldl
      (fun wc ch =>
        if T.wxIsalpha ch then wc ++ ['[', T.wxTolower ch, T.wxToupper ch, ']']
        else wc ++ [ch])
      acc
    = acc ++ E.flatMap
        (fun c => if T.wxIsalpha c then ['[', T.wxTolower c, T.wxToupper c, ']'] else [c]) := by
  induction E generalizing acc with
  | nil => simp
  | cons c E ih =>
    rw [List.foldl_cons, ih, List.flatMap_cons]
    by_cases h : T.wxIsalpha c = true <;> simp [h]

theorem formatWildcardExt_gtk (T : WxCType) (E : wxString) :
    formatWildcardExt T true E
    = E.flatMap
        (fun c => if T.wxIsalpha c then ['[', T.wxTolower c, T.wxToupper c, ']'] else [c]) := by
  simp [formatWildcardExt, foldl_bracket]

theorem infoLoop_length (es : List wxString) (ff : wxString) :
    infoLoop es.length es ff = some (ff ++ es.flatMap (fun x => " *.".toList ++ x)) := by
  induction es generalizing ff with
  | nil => simp [infoLoop]
  | cons e es ih => simp [infoLoop, ih, List.flatMap_cons]

theorem filterLoop_length_pos (T : WxCType) (gtk : Bool) (es : List wxString) (ii : Nat)
    (hii : 0 < ii) (ff : wxString) :
    filterLoop T gtk es.length ii es ff
    = some (ff ++ es.flatMap (fun x => ";*.".toList ++ formatWildcardExt T gtk x)) := by
  induction es generalizing ff ii with
  | nil => simp [filterLoop]
  | cons e es ih =>
    simp only [List.length_cons, filterLoop, gt_iff_lt, hii, if_true]
    rw [ih (ii + 1) (Nat.succ_pos ii)]
    simp [List.flatMap_cons]

theorem filterLoop_length_zero (T : WxCType) (gtk : Bool) (e : wxString) (es : List wxString)
    (ff : wxString) :
    filterLoop T gtk (e :: es).length 0 (e :: es) ff
    = some (ff ++ formatWildcardExt T gtk e
        ++ es.flatMap (fun x => ";*.".toList ++ formatWildcardExt T gtk x)) := by
  simp only [List.length_cons, filterLoop, gt_iff_lt, Nat.lt_irrefl, if_false]
  rw [filterLoop_length_pos T gtk es 1 Nat.one_pos]

theorem AddFileExtListToFilter_cons (T : WxCType) (gtk : Bool) (e : wxString)
    (es : List wxString) :
    AddFileExtListToFilter T gtk ((e :: es).length : Nat) (e :: es)
    = some (" (".toList ++ (e :: es).flatMap (fun x => " *.".toList ++ x) ++ ")|*.".toList
        ++ formatWildcardExt T gtk e
        ++ es.flatMap (fun x => ";*.".toList ++ formatWildcardExt T gtk x)) := by
  unfold AddFileExtListToFilter
  rw [Int.toNat_ofNat, infoLoop_length]
  simp only []
  rw [filterLoop_length_zero]

theorem intercalate_cons_flatMap (sep x : wxString) (xs : List wxString) :
    List.intercalate sep (x :: xs) = x ++ xs.flatMap (fun y => sep ++ y) := by
  induction xs generalizing x with
  | nil => simp [List.intercalate]
  | cons y ys ih =>
    have := ih y
    simp only [List.intercalate, List.intersperse, List.flatten, List.flatMap_cons] at this ⊢
    rw [this, List.append_assoc]

theorem toNat_ofNat_small (n : Nat) (h : n < 55296) : (Char.ofNat n).toNat = n := by
  have hv : n.isValidChar := Or.inl h
  simp [Char.ofNat, hv, Char.toNat, Char.ofNatAux, UInt32.toNat]

theorem isUpper_iff (c : Char) : c.isUpper = true ↔ 65 ≤ c.toNat ∧ c.toNat ≤ 90 := by
  simp [Char.isUpper, Char.toNat, UInt32.le_def, BitVec.le_def, UInt32.toNat]

theorem isLower_iff (c : Char) : c.isLower = true ↔ 97 ≤ c.toNat ∧ c.toNat ≤ 122 := by
  simp [Char.isLower, Char.toNat, UInt32.le_def, BitVec.le_def, UInt32.toNat]

theorem toLower_toNat (c : Char) :
    c.toLower.toNat = if 65 ≤ c.toNat ∧ c.toNat ≤ 90 then c.toNat + 32 else c.toNat := by
  unfold Char.toLower
  by_cases h : 65 ≤ c.toNat ∧ c.toNat ≤ 90
  · simp only [ge_iff_le, h, and_self, if_true]
    exact toNat_ofNat_small _ (by omega)
  · simp only [ge_iff_le, h, if_false]

theorem toUpper_toNat (c : Char) :
    c.toUpper.toNat = if 97 ≤ c.toNat ∧ c.toNat ≤ 122 then c.toNat - 32 else c.toNat := by
  unfold Char.toUpper
  by_cases h : 97 ≤ c.toNat ∧ c.toNat ≤ 122
  · simp only [ge_iff_le, h, and_self, if_true]
    exact toNat_ofNat_small _ (by omega)
  · simp only [ge_iff_le, h, if_false]

theorem char_toNat_inj {a b : Char} : a.toNat = b.toNat ↔ a = b := by
  constructor
  · intro h
    rw [← Char.ofNat_toNat a, ← Char.ofNat_toNat b, h]
  · rintro rfl; rfl

theorem flatMap_space_star (es : List wxString) :
    es.flatMap (fun x => " *.".toList ++ x)
    = (es.map (fun x => "*.".toList ++ x)).flatMap (fun y => " ".toList ++ y) := by
  induction es with
  | nil => rfl
  | cons e es ih =>
    rw [List.flatMap_cons, List.map_cons, List.flatMap_cons, ih]
    rfl

theorem flatMap_sep_format (T : WxCType) (gtk : Bool) (es : List wxString) :
    es.flatMap (fun x => ";*.".toList ++ formatWildcardExt T gtk x)
    = (es.map (formatWildcardExt T gtk)).flatMap (fun y => ";*.".toList ++ y) := by
  induction es with
  | nil => rfl
  | cons e es ih => rw [List.flatMap_cons, List.map_cons, List.flatMap_cons, ih]

theorem length_flatMap_bracket (T : WxCType) (E : wxString) :
    (E.flatMap (fun c =>
      if T.wxIsalpha c then ['[', T.wxTolower c, T.wxToupper c, ']'] else [c])).length
    = E.length + 3 * E.countP T.wxIsalpha := by
  induction E with
  | nil => rfl
  | cons c E ih =>
    rw [List.flatMap_cons, List.length_append, ih, List.countP_cons, List.length_cons]
    by_cases h : T.wxIsalpha c = true
    · simp only [h, if_true, List.length_cons, List.length_nil]
      omega
    · simp only [h, if_false, List.length_cons, List.length_nil, Bool.false_eq_true]
      omega

theorem accessors_eq_calls : accessors = accessorCalls.map WildcardCall.run := rfl

theorem accessorCalls_counts :
    ∀ c ∈ accessorCalls, c.aArgCnt = (c.args.length : Nat) ∧ 1 ≤ c.aArgCnt := by
  decide

theorem accessorCalls_no_bar :
    ∀ c ∈ accessorCalls, ∀ e ∈ c.args, '|' ∉ e := by
  decide

theorem accessor_of_index (i : Nat) (f : (wxString → wxString) → WxCType → Bool → Option wxString)
    (c : WildcardCall) (hf : accessors[i]? = some f) (hc : accessorCalls[i]? = some c) :
    f = c.run ∧ c ∈ accessorCalls := by
  constructor
  · rw [accessors_eq_calls, List.getElem?_map, hc] at hf
    exact (Option.some.inj hf).symm
  · exact List.getElem?_mem hc

theorem star_ext_within_flatMap (e : wxString) (es : List wxString) (he : e ∈ es) :
    ("*.".toList ++ e) <:+: es.flatMap (fun x => " *.".toList ++ x) := by
  obtain ⟨l1, l2, rfl⟩ := List.append_of_mem he
  refine ⟨l1.flatMap (fun x => " *.".toList ++ x) ++ " ".toList,
    l2.flatMap (fun x => " *.".toList ++ x), ?_⟩
  rw [List.flatMap_append, List.flatMap_cons]
  have h : " *.".toList = " ".toList ++ "*.".toList := rfl
  simp only [h, List.append_assoc]

theorem run_of_counts (c : WildcardCall) (hn : c.aArgCnt = (c.args.length : Nat))
    (h1 : 1 ≤ c.aArgCnt) (tr : wxString → wxString) (T : WxCType) (gtk : Bool) :
    ∃ filt, c.run tr T gtk
      = some (tr c.descr
          ++ (" (".toList ++ c.args.flatMap (fun x => " *.".toList ++ x) ++ ")".toList)
          ++ '|' :: filt) := by
  obtain ⟨descr, aArgCnt, args⟩ := c
  simp only at hn h1
  subst hn
  cases args with
  | nil => simp at h1
  | cons e es =>
    refine ⟨"*.".toList ++ formatWildcardExt T gtk e
      ++ es.flatMap (fun x => ";*.".toList ++ formatWildcardExt T gtk x), ?_⟩
    simp only [WildcardCall.run]
    rw [AddFileExtListToFilter_cons]
    have h2 : ")|*.".toList = ")".toList ++ '|' :: "*.".toList := rfl
    simp only [h2, Option.map_some', List.append_assoc, List.cons_append, List.nil_append]

theorem AddFileExtListToFilter_length (T : WxCType) (gtk : Bool) (es : List wxString) :
    AddFileExtListToFilter T gtk (es.length : Nat) es
    = some (" (".toList ++ es.flatMap (fun x => " *.".toList ++ x) ++ ")|*.".toList
        ++ List.intercalate ";*.".toList (es.map (formatWildcardExt T gtk))) := by
  cases es with
  | nil => rfl
  | cons e es =>
    rw [AddFileExtListToFilter_cons, List.map_cons, intercalate_cons_flatMap,
      flatMap_sep_format]
    simp only [List.append_assoc]

theorem count_bar_flatMap (f : wxString → wxString) (es : List wxString)
    (h : ∀ e ∈ es, '|' ∉ f e) : (es.flatMap f).count '|' = 0 := by
  rw [List.count_eq_zero]
  intro hin
  obtain ⟨e, he, hc⟩ := List.mem_flatMap.mp hin
  exact h e he hc

theorem bar_not_mem_formatWildcardExt (T : WxCType) (gtk : Bool) (e : wxString)
    (he : '|' ∉ e)
    (hT : gtk = true → ∀ c ∈ e, T.wxIsalpha c = true →
      T.wxTolower c ≠ '|' ∧ T.wxToupper c ≠ '|') :
    '|' ∉ formatWildcardExt T gtk e := by
  cases gtk with
  | false => simpa [formatWildcardExt] using he
  | true =>
    rw [formatWildcardExt_gtk]
    intro hin
    obtain ⟨c, hc, hm⟩ := List.mem_flatMap.mp hin
    by_cases ha : T.wxIsalpha c = true
    · obtain ⟨hl, hu⟩ := hT rfl c hc ha
      simp only [ha, if_true, List.mem_cons, List.mem_singleton] at hm
      rcases hm with h | h | h | h | h
      · revert h; decide
      · exact hl h.symm
      · exact hu h.symm
      · revert h; decide
      · cases h
    · simp only [ha, if_false, List.mem_singleton, Bool.false_eq_true] at hm
      exact he (hm ▸ hc)

theorem count_bar_result (T : WxCType) (gtk : Bool) (D : wxString) (es : List wxString)
    (hD : '|' ∉ D) (hes : ∀ e ∈ es, '|' ∉ e)
    (hT : gtk = true → ∀ e ∈ es, ∀ c ∈ e, T.wxIsalpha c = true →
      T.wxTolower c ≠ '|' ∧ T.wxToupper c ≠ '|') :
    (D ++ (" (".toList ++ es.flatMap (fun x => " *.".toList ++ x) ++ ")|*.".toList
        ++ List.intercalate ";*.".toList (es.map (formatWildcardExt T gtk)))).count '|' = 1 := by
  have h1 : D.count '|' = 0 := List.count_eq_zero.mpr hD
  have h2 : (es.flatMap (fun x => " *.".toList ++ x)).count '|' = 0 := by
    apply count_bar_flatMap
    intro e he hin
    rcases List.mem_append.mp hin with h | h
    · revert h; decide
    · exact hes e he h
  have hn : ∀ e ∈ es, '|' ∉ formatWildcardExt T gtk e := fun e he =>
    bar_not_mem_formatWildcardExt T gtk e (hes e he) (fun hg => hT hg e he)
  have h3 : (List.intercalate ";*.".toList (es.map (formatWildcardExt T gtk))).count '|' = 0 := by
    cases es with
    | nil => rfl
    | cons e es =>
      rw [List.map_cons, intercalate_cons_flatMap, List.count_append,
        List.count_eq_zero.mpr (hn e (List.mem_cons_self e es)), count_bar_flatMap]
      intro y hy hin
      obtain ⟨x, hx, rfl⟩ := List.mem_map.mp hy
      rcases List.mem_append.mp hin with h | h
      · revert h; decide
      · exact hn x (List.mem_cons_of_mem e hx) h
  have h4 : (" (".toList).count '|' = 0 := by decide
  have h5 : (")|*.".toList).count '|' = 1 := by decide
  simp only [List.count_append, h1, h2, h3, h4, h5]

theorem isAlpha_iff (c : Char) :
    c.isAlpha = true ↔ (65 ≤ c.toNat ∧ c.toNat ≤ 90) ∨ (97 ≤ c.toNat ∧ c.toNat ≤ 122) := by
  simp only [Char.isAlpha, Bool.or_eq_true, isUpper_iff, isLower_iff]

theorem isAlpha_toLower (c : Char) : c.toLower.isAlpha = c.isAlpha := by
  rw [Bool.eq_iff_iff, isAlpha_iff, isAlpha_iff, toLower_toNat]
  split_ifs <;> omega

theorem isAlpha_toUpper (c : Char) : c.toUpper.isAlpha = c.isAlpha := by
  rw [Bool.eq_iff_iff, isAlpha_iff, isAlpha_iff, toUpper_toNat]
  split_ifs <;> omega

theorem toLower_toLower (c : Char) : c.toLower.toLower = c.toLower := by
  simp only [← char_toNat_inj, toLower_toNat]
  split_ifs <;> omega

theorem toUpper_toLower (c : Char) : c.toLower.toUpper = c.toUpper := by
  simp only [← char_toNat_inj, toLower_toNat, toUpper_toNat]
  split_ifs <;> omega

theorem toLower_toUpper (c : Char) : c.toUpper.toLower = c.toLower := by
  simp only [← char_toNat_inj, toLower_toNat, toUpper_toNat]
  split_ifs <;> omega

theorem toUpper_toUpper (c : Char) : c.toUpper.toUpper = c.toUpper := by
  simp only [← char_toNat_inj, toUpper_toNat]
  split_ifs <;> omega

theorem toLower_ascii (c : Char) (h : c.toNat < 128) : c.toLower.toNat < 128 := by
  rw [toLower_toNat]
  split_ifs <;> omega

theorem toUpper_ascii (c : Char) (h : c.toNat < 128) : c.toUpper.toNat < 128 := by
  rw [toUpper_toNat]
  split_ifs <;> omega

theorem flatMap_bracket_map (T : WxCType) (g : Char → Char) (E : wxString)
    (h : ∀ c ∈ E,
      (if T.wxIsalpha (g c) then ['[', T.wxTolower (g c), T.wxToupper (g c), ']'] else [g c])
      = (if T.wxIsalpha c then ['[', T.wxTolower c, T.wxToupper c, ']'] else [c])) :
    formatWildcardExt T true (E.map g) = formatWildcardExt T true E := by
  rw [formatWildcardExt_gtk, formatWildcardExt_gtk]
  induction E with
  | nil => rfl
  | cons c E ih =>
    rw [List.map_cons, List.flatMap_cons, List.flatMap_cons, h c (List.mem_cons_self c E),
      ih (fun x hx => h x (List.mem_cons_of_mem c hx))]

theorem bracket_toLower (T : WxCType) (c : Char)
    (h1 : T.wxIsalpha c = c.isAlpha ∧ T.wxTolower c = c.toLower ∧ T.wxToupper c = c.toUpper)
    (h2 : T.wxIsalpha c.toLower = c.toLower.isAlpha ∧ T.wxTolower c.toLower = c.toLower.toLower
      ∧ T.wxToupper c.toLower = c.toLower.toUpper) :
    (if T.wxIsalpha c.toLower
      then ['[', T.wxTolower c.toLower, T.wxToupper c.toLower, ']'] else [c.toLower])
    = (if T.wxIsalpha c then ['[', T.wxTolower c, T.wxToupper c, ']'] else [c]) := by
  obtain ⟨a1, l1, u1⟩ := h1
  obtain ⟨a2, l2, u2⟩ := h2
  rw [a1, l1, u1, a2, l2, u2, isAlpha_toLower, toLower_toLower, toUpper_toLower]
  by_cases ha : c.isAlpha = true
  · simp only [ha, if_true]
  · have hl : c.toLower = c := by
      rw [isAlpha_iff] at ha
      rw [← char_toNat_inj, toLower_toNat]
      split_ifs <;> omega
    simp only [ha, Bool.false_eq_true, if_false, hl]

theorem bracket_toUpper (T : WxCType) (c : Char)
    (h1 : T.wxIsalpha c = c.isAlpha ∧ T.wxTolower c = c.toLower ∧ T.wxToupper c = c.toUpper)
    (h2 : T.wxIsalpha c.toUpper = c.toUpper.isAlpha ∧ T.wxTolower c.toUpper = c.toUpper.toLower
      ∧ T.wxToupper c.toUpper = c.toUpper.toUpper) :
    (if T.wxIsalpha c.toUpper
      then ['[', T.wxTolower c.toUpper, T.wxToupper c.toUpper, ']'] else [c.toUpper])
    = (if T.wxIsalpha c then ['[', T.wxTolower c, T.wxToupper c, ']'] else [c]) := by
  obtain ⟨a1, l1, u1⟩ := h1
  obtain ⟨a2, l2, u2⟩ := h2
  rw [a1, l1, u1, a2, l2, u2, isAlpha_toUpper, toLower_toUpper, toUpper_toUpper]
  by_cases ha : c.isAlpha = true
  · simp only [ha, if_true]
  · have hl : c.toUpper = c := by
      rw [isAlpha_iff] at ha
      rw [← char_toNat_inj, toUpper_toNat]
      split_ifs <;> omega
    simp only [ha, Bool.false_eq_true, if_false, hl]

theorem accessorCalls_descr_no_bar : ∀ c ∈ accessorCalls, '|' ∉ c.descr := by
  decide

theorem cLocale_case_ne_bar (ch : Char) (h : ch.isAlpha = true) :
    ch.toLower ≠ '|' ∧ ch.toUpper ≠ '|' := by
  rw [isAlpha_iff] at h
  have hb : Char.toNat '|' = 124 := rfl
  constructor
  · intro e
    have h1 := congrArg Char.toNat e
    rw [toLower_toNat, hb] at h1
    split_ifs at h1 <;> omega
  · intro e
    have h1 := congrArg Char.toNat e
    rw [toUpper_toNat, hb] at h1
    split_ifs at h1 <;> omega

/-! ## Properties of the formatter, the builder and the accessors -/

/-- C1 (amended). For every description D and every non-empty list of extension
tokens e, es, the string D followed by the result of AddFileExtListToFilter is
D, a space, an opening parenthesis, every raw extension (the first included)
written as a space followed by "*." and the extension, a closing parenthesis,
"|", and the filter half "*.norm(e1);*.norm(e2)...". For "X files" and "abc"
this is "X files ( *.abc)|*.abc" without GTK and
"X files ( *.abc)|*.[aA][bB][cC]" with GTK. -/
theorem AddFileExtListToFilter_form :
    (∀ (T : WxCType) (gtk : Bool) (D e : wxString) (es : List wxString),
      (AddFileExtListToFilter T gtk ((e :: es).length : Nat) (e :: es)).map (D ++ ·)
      = some (D ++ " (".toList ++ (e :: es).flatMap (fun x => " *.".toList ++ x)
          ++ ")|".toList ++ "*.".toList ++ formatWildcardExt T gtk e
          ++ es.flatMap (fun x => ";*.".toList ++ formatWildcardExt T gtk x)))
    ∧ (AddFileExtListToFilter cLocale false 1 ["abc".toList]).map ("X files".toList ++ ·)
      = some "X files ( *.abc)|*.abc".toList
    ∧ (AddFileExtListToFilter cLocale true 1 ["abc".toList]).map ("X files".toList ++ ·)
      = some "X files ( *.abc)|*.[aA][bB][cC]".toList := by
  refine ⟨?_, by decide, by decide⟩
  intro T gtk D e es
  rw [AddFileExtListToFilter_cons]
  simp

/-- C1 (counterexample). For the description "X files" and the single extension
"abc" the result on the case-insensitive path is "X files ( *.abc)|*.abc", with
a space between the parenthesis and "*.abc"; it is not "X files (*.abc)|*.abc". -/
theorem AddFileExtListToFilter_paren_then_space :
    (AddFileExtListToFilter cLocale false 1 ["abc".toList]).map ("X files".toList ++ ·)
      = some "X files ( *.abc)|*.abc".toList
    ∧ (AddFileExtListToFilter cLocale false 1 ["abc".toList]).map ("X files".toList ++ ·)
      ≠ some "X files (*.abc)|*.abc".toList := by
  decide

/-- C4. For a non-empty list e, es the result of AddFileExtListToFilter is the
description half " ( *.e1 *.e2 ... *.en", then ")|", then the filter half
"*.norm(e1);*.norm(e2)...;*.norm(en)": both halves keep the input order, and
in the filter half the first extension has no leading separator, each later
one is prefixed by ";*." and nothing trails. For "a", "b" without GTK the
filter half is "*.a;*.b" and the description half contains "*.a *.b". -/
theorem AddFileExtListToFilter_halves :
    (∀ (T : WxCType) (gtk : Bool) (e : wxString) (es : List wxString),
      AddFileExtListToFilter T gtk ((e :: es).length : Nat) (e :: es)
      = some (" ( ".toList
          ++ List.intercalate " ".toList ((e :: es).map (fun x => "*.".toList ++ x))
          ++ ")|".toList
          ++ ("*.".toList
            ++ List.intercalate ";*.".toList ((e :: es).map (formatWildcardExt T gtk)))))
    ∧ AddFileExtListToFilter cLocale false 2 ["a".toList, "b".toList]
      = some (" ( *.a *.b".toList ++ ")|".toList ++ "*.a;*.b".toList)
    ∧ "*.a *.b".toList <:+: " ( *.a *.b".toList := by
  refine ⟨?_, by decide, by decide⟩
  intro T gtk e es
  rw [AddFileExtListToFilter_cons, List.map_cons, List.map_cons, intercalate_cons_flatMap,
    intercalate_cons_flatMap, List.flatMap_cons, flatMap_space_star, flatMap_sep_format]
  have h1 : ∀ X : wxString,
      " (".toList ++ (" *.".toList ++ X) = " ( ".toList ++ ("*.".toList ++ X) := fun _ => rfl
  have h2 : ")|*.".toList = ")|".toList ++ "*.".toList := rfl
  simp only [List.append_assoc, h2]
  rw [h1]

/-- C5. Without GTK, formatWildcardExt returns its argument unchanged, whatever
the characters of the token. -/
theorem formatWildcardExt_not_gtk (T : WxCType) (E : wxString) :
    formatWildcardExt T false E = E := by
  simp [formatWildcardExt]

/-- C6. The i-th accessor f, with call data c, returns for every localization tr
and on both platform paths a non-empty string r that starts with tr applied
to the description and splits as tr(description), a parenthesised part free
of "|", the separator "|" and a filter; the parenthesised part contains
"*." followed by e for each of the extensions e of the accessor, of which
there is at least one. -/
theorem accessor_has_description_and_extensions (i : Nat)
    (f : (wxString → wxString) → WxCType → Bool → Option wxString) (c : WildcardCall)
    (hf : accessors[i]? = some f) (hc : accessorCalls[i]? = some c)
    (tr : wxString → wxString) (T : WxCType) (gtk : Bool) :
    f = c.run ∧ c.args ≠ [] ∧
    ∃ r half filt, f tr T gtk = some r ∧ r ≠ [] ∧ tr c.descr <+: r
      ∧ r = tr c.descr ++ half ++ '|' :: filt ∧ '|' ∉ half
      ∧ ∀ e ∈ c.args, ("*.".toList ++ e) <:+: half := by
  obtain ⟨hrun, hmem⟩ := accessor_of_index i f c hf hc
  obtain ⟨hn, h1⟩ := accessorCalls_counts c hmem
  have hbar := accessorCalls_no_bar c hmem
  obtain ⟨filt, hr⟩ := run_of_counts c hn h1 tr T gtk
  refine ⟨hrun, ?_, _, _, filt, hrun ▸ hr, ?_, ?_, rfl, ?_, ?_⟩
  · intro h0
    rw [h0] at hn
    rw [hn] at h1
    simp at h1
  · simp
  · exact ⟨_, by rw [List.append_assoc]⟩
  · intro hin
    simp only [List.mem_append, List.mem_flatMap] at hin
    rcases hin with (h | ⟨e, he, h⟩) | h
    · revert h; decide
    · rcases h with h | h
      · revert h; decide
      · exact hbar e he h
    · revert h; decide
  · intro e he
    obtain ⟨a, b, hab⟩ := star_ext_within_flatMap e c.args he
    exact ⟨" (".toList ++ a, b ++ ")".toList, by rw [← hab]; simp only [List.append_assoc]⟩

/-- C6 (witness). The fourth accessor is SchematicFileWildcard with the
description "KiCad schematic files" and the extension "sch". -/
theorem accessor_has_description_and_extensions_witness :
    accessors[3]? = some SchematicFileWildcard
    ∧ accessorCalls[3]? = some ⟨"KiCad schematic files".toList, 1, ["sch".toList]⟩
    ∧ ∃ r half filt, SchematicFileWildcard id cLocale true = some r ∧ r ≠ []
      ∧ id "KiCad schematic files".toList <+: r
      ∧ r = id "KiCad schematic files".toList ++ half ++ '|' :: filt ∧ '|' ∉ half
      ∧ ∀ e ∈ ["sch".toList], ("*.".toList ++ e) <:+: half :=
  ⟨rfl, rfl,
    (accessor_has_description_and_extensions 3 SchematicFileWildcard
      ⟨"KiCad schematic files".toList, 1, ["sch".toList]⟩ rfl rfl id cLocale true).2.2⟩

/-- C7 (amended). With the identity localization and without GTK,
SchematicFileWildcard returns "KiCad schematic files ( *.sch)|*.sch". -/
theorem SchematicFileWildcard_value (T : WxCType) :
    SchematicFileWildcard id T false
    = some "KiCad schematic files ( *.sch)|*.sch".toList := by
  rfl

/-- C7 (counterexample). With the identity localization and without GTK,
SchematicFileWildcard does not return "KiCad schematic files (*.sch)|*.sch". -/
theorem SchematicFileWildcard_not_tight :
    SchematicFileWildcard id cLocale false
    ≠ some "KiCad schematic files (*.sch)|*.sch".toList := by
  decide

/-- C8. Called with a count of zero, AddFileExtListToFilter returns a string on
both platform paths, and that string is " ()|*.": an empty parenthesis, the
separator, and a filter half that is the bare "*.". -/
theorem AddFileExtListToFilter_zero (T : WxCType) (gtk : Bool) (args : List wxString) :
    AddFileExtListToFilter T gtk 0 args = some " ()|*.".toList
    ∧ " ()|*.".toList = " ()".toList ++ '|' :: "*.".toList := by
  constructor
  · rfl
  · rfl

/-- C9. With GTK, the length of formatWildcardExt(E) is the length of E plus three
times the number of alphabetic characters of E; so it is at least the length
of E, and equal to it exactly when E has no alphabetic character. -/
theorem formatWildcardExt_gtk_length (T : WxCType) (E : wxString) :
    (formatWildcardExt T true E).length = E.length + 3 * E.countP T.wxIsalpha
    ∧ E.length ≤ (formatWildcardExt T true E).length
    ∧ ((formatWildcardExt T true E).length = E.length ↔ ∀ c ∈ E, T.wxIsalpha c = false) := by
  have h := length_flatMap_bracket T E
  rw [← formatWildcardExt_gtk] at h
  refine ⟨h, by omega, ?_⟩
  rw [h]
  constructor
  · intro h0
    have h1 : E.countP T.wxIsalpha = 0 := by omega
    rw [List.countP_eq_zero] at h1
    intro c hc
    simpa using h1 c hc
  · intro h0
    have h1 : E.countP T.wxIsalpha = 0 := by
      rw [List.countP_eq_zero]
      intro c hc
      simp [h0 c hc]
    omega

/-- C10. The i-th accessor f, with call data c, is the call of
AddFileExtListToFilter recorded in c; its count argument equals the number of
extension strings passed and is at least 1, so the argument list is not
empty and the builder returns a string without reading a missing argument.
There are 45 accessors. -/
theorem accessor_call_well_formed (i : Nat)
    (f : (wxString → wxString) → WxCType → Bool → Option wxString) (c : WildcardCall)
    (hf : accessors[i]? = some f) (hc : accessorCalls[i]? = some c) :
    accessors.length = 45
    ∧ f = (fun tr T gtk =>
        (AddFileExtListToFilter T gtk c.aArgCnt c.args).map (tr c.descr ++ ·))
    ∧ c.aArgCnt = (c.args.length : Nat) ∧ 1 ≤ c.aArgCnt ∧ c.args ≠ []
    ∧ ∀ (T : WxCType) (gtk : Bool),
        (AddFileExtListToFilter T gtk c.aArgCnt c.args).isSome = true := by
  obtain ⟨hrun, hmem⟩ := accessor_of_index i f c hf hc
  obtain ⟨hn, h1⟩ := accessorCalls_counts c hmem
  have hne : c.args ≠ [] := by
    intro h0
    rw [h0] at hn
    rw [hn] at h1
    simp at h1
  refine ⟨rfl, hrun, hn, h1, hne, ?_⟩
  intro T gtk
  obtain ⟨e, es, hes⟩ := List.exists_cons_of_ne_nil hne
  rw [hn, hes, AddFileExtListToFilter_cons]
  rfl

/-- C10 (witness). The twentieth accessor is DrillFileWildcard, called with the
count 3 and the three extensions "drl", "nc" and "xnc". -/
theorem accessor_call_well_formed_witness :
    accessors[19]? = some DrillFileWildcard
    ∧ accessorCalls[19]? = some ⟨"Drill files".toList, 3, ["drl".toList, "nc".toList, "xnc".toList]⟩
    ∧ ((3 : Int) = ((["drl".toList, "nc".toList, "xnc".toList].length : Nat) : Int))
    ∧ ∀ (T : WxCType) (gtk : Bool),
        (AddFileExtListToFilter T gtk 3
          ["drl".toList, "nc".toList, "xnc".toList]).isSome = true :=
  ⟨rfl, rfl, rfl,
    (accessor_call_well_formed 19 DrillFileWildcard
      ⟨"Drill files".toList, 3, ["drl".toList, "nc".toList, "xnc".toList]⟩ rfl rfl).2.2.2.2.2⟩

/-- C11. If neither the description D nor any extension contains "|", and on the
GTK path the case conversions of the alphabetic characters of the extensions
do not produce "|", then D followed by the result of AddFileExtListToFilter
contains exactly one "|", on both platform paths. The condition on the case
conversions holds in the C locale, where the statement needs no more than D
and the extensions being free of "|". In particular the i-th accessor f,
with call data c, returns under the identity localization a string with
exactly one "|". -/
theorem AddFileExtListToFilter_single_bar :
    (∀ (T : WxCType) (gtk : Bool) (D : wxString) (es : List wxString),
      '|' ∉ D → (∀ e ∈ es, '|' ∉ e) →
      (gtk = true → ∀ e ∈ es, ∀ ch ∈ e, T.wxIsalpha ch = true →
        T.wxTolower ch ≠ '|' ∧ T.wxToupper ch ≠ '|') →
      ∃ r, AddFileExtListToFilter T gtk (es.length : Nat) es = some r
        ∧ (D ++ r).count '|' = 1)
    ∧ (∀ (gtk : Bool) (D : wxString) (es : List wxString),
      '|' ∉ D → (∀ e ∈ es, '|' ∉ e) →
      ∃ r, AddFileExtListToFilter cLocale gtk (es.length : Nat) es = some r
        ∧ (D ++ r).count '|' = 1)
    ∧ (∀ (i : Nat) (f : (wxString → wxString) → WxCType → Bool → Option wxString)
        (c : WildcardCall) (T : WxCType) (gtk : Bool),
      accessors[i]? = some f → accessorCalls[i]? = some c →
      (gtk = true → ∀ e ∈ c.args, ∀ ch ∈ e, T.wxIsalpha ch = true →
        T.wxTolower ch ≠ '|' ∧ T.wxToupper ch ≠ '|') →
      ∃ r, f id T gtk = some r ∧ r.count '|' = 1) := by
  refine ⟨?_, ?_, ?_⟩
  · intro T gtk D es hD hes hT
    exact ⟨_, AddFileExtListToFilter_length T gtk es, count_bar_result T gtk D es hD hes hT⟩
  · intro gtk D es hD hes
    exact ⟨_, AddFileExtListToFilter_length cLocale gtk es,
      count_bar_result cLocale gtk D es hD hes (fun _ _ _ ch _ ha => cLocale_case_ne_bar ch ha)⟩
  · intro i f c T gtk hf hc hT
    obtain ⟨hrun, hmem⟩ := accessor_of_index i f c hf hc
    obtain ⟨hn, _⟩ := accessorCalls_counts c hmem
    refine ⟨_, ?_, count_bar_result T gtk c.descr c.args (accessorCalls_descr_no_bar c hmem)
      (accessorCalls_no_bar c hmem) hT⟩
    rw [hrun, WildcardCall.run, hn, AddFileExtListToFilter_length]
    rfl

/-- C11 (witness). In the C locale and with GTK, "Y" followed by the result for
"a", "b" has one "|", and so has the value of GerberJobFileWildcard, the
fortieth accessor. -/
theorem AddFileExtListToFilter_single_bar_witness :
    ('|' ∉ "Y".toList ∧ (∀ e ∈ ["a".toList, "b".toList], '|' ∉ e)
      ∧ (∀ e ∈ ["a".toList, "b".toList], ∀ ch ∈ e, cLocale.wxIsalpha ch = true →
          cLocale.wxTolower ch ≠ '|' ∧ cLocale.wxToupper ch ≠ '|')
      ∧ ∃ r, AddFileExtListToFilter cLocale true 2 ["a".toList, "b".toList] = some r
          ∧ ("Y".toList ++ r).count '|' = 1)
    ∧ (∃ r, AddFileExtListToFilter cLocale false 1 ["sch".toList] = some r
        ∧ ("KiCad schematic files".toList ++ r).count '|' = 1)
    ∧ (accessors[39]? = some GerberJobFileWildcard
      ∧ accessorCalls[39]? = some ⟨"Gerber job file".toList, 1, ["gbrjob".toList]⟩
      ∧ ∃ r, GerberJobFileWildcard id cLocale true = some r ∧ r.count '|' = 1) :=
  ⟨⟨by decide, by decide, by decide,
      AddFileExtListToFilter_single_bar.1 cLocale true "Y".toList ["a".toList, "b".toList]
        (by decide) (by decide) (fun _ => by decide)⟩,
    AddFileExtListToFilter_single_bar.2.1 false "KiCad schematic files".toList ["sch".toList]
      (by decide) (by decide),
    rfl, rfl,
    AddFileExtListToFilter_single_bar.2.2 39 GerberJobFileWildcard
      ⟨"Gerber job file".toList, 1, ["gbrjob".toList]⟩ cLocale true rfl rfl
      (fun _ => by decide)⟩

/-- C12. For every list of extensions the result of AddFileExtListToFilter on the
GTK path and the one on the other path start with the same text
" (" ++ " *.e1 *.e2 ..." ++ ")|*.", in which the extensions are written as
given; the results differ only in what follows, the formatted extensions
with GTK and the extensions as given without. For "sch" the common start is
" ( *.sch)|*.", followed by "[sS][cC][hH]" and by "sch". -/
theorem AddFileExtListToFilter_info_platform_free :
    (∀ (T1 T2 : WxCType) (es : List wxString),
      AddFileExtListToFilter T1 true (es.length : Nat) es
        = some (" (".toList ++ es.flatMap (fun x => " *.".toList ++ x) ++ ")|*.".toList
            ++ List.intercalate ";*.".toList (es.map (formatWildcardExt T1 true)))
      ∧ AddFileExtListToFilter T2 false (es.length : Nat) es
        = some (" (".toList ++ es.flatMap (fun x => " *.".toList ++ x) ++ ")|*.".toList
            ++ List.intercalate ";*.".toList es))
    ∧ AddFileExtListToFilter cLocale true 1 ["sch".toList]
      = some (" ( *.sch)|*.".toList ++ "[sS][cC][hH]".toList)
    ∧ AddFileExtListToFilter cLocale false 1 ["sch".toList]
      = some (" ( *.sch)|*.".toList ++ "sch".toList) := by
  refine ⟨?_, by decide, by decide⟩
  intro T1 T2 es
  refine ⟨AddFileExtListToFilter_length T1 true es, ?_⟩
  rw [AddFileExtListToFilter_length]
  have h : es.map (formatWildcardExt T2 false) = es := by
    induction es with
    | nil => rfl
    | cons e es ih => rw [List.map_cons, ih]; rfl
  rw [h]

/-- C13 (amended). With GTK, when the wx character functions act on ASCII characters as the
ASCII ones do, formatWildcardExt gives for a token E of ASCII characters the
same result as for E in lower case and as for E in upper case. In the C
locale this holds for every token, and "SCH", "Sch" and "sch" all give
"[sS][cC][hH]". -/
theorem formatWildcardExt_gtk_case_blind :
    (∀ (T : WxCType) (E : wxString),
      (∀ c : Char, c.toNat < 128 → T.wxIsalpha c = c.isAlpha
        ∧ T.wxTolower c = c.toLower ∧ T.wxToupper c = c.toUpper) →
      (∀ c ∈ E, c.toNat < 128) →
      formatWildcardExt T true E = formatWildcardExt T true (E.map Char.toLower)
      ∧ formatWildcardExt T true (E.map Char.toLower)
        = formatWildcardExt T true (E.map Char.toUpper))
    ∧ (∀ E : wxString,
      formatWildcardExt cLocale true E = formatWildcardExt cLocale true (E.map Char.toLower)
      ∧ formatWildcardExt cLocale true (E.map Char.toLower)
        = formatWildcardExt cLocale true (E.map Char.toUpper))
    ∧ formatWildcardExt cLocale true "SCH".toList = "[sS][cC][hH]".toList
    ∧ formatWildcardExt cLocale true "Sch".toList = "[sS][cC][hH]".toList
    ∧ formatWildcardExt cLocale true "sch".toList = "[sS][cC][hH]".toList := by
  refine ⟨?_, ?_, by decide, by decide, by decide⟩
  · intro T E hT hE
    have hl := flatMap_bracket_map T Char.toLower E
      (fun c hc => bracket_toLower T c (hT c (hE c hc)) (hT _ (toLower_ascii c (hE c hc))))
    have hu := flatMap_bracket_map T Char.toUpper E
      (fun c hc => bracket_toUpper T c (hT c (hE c hc)) (hT _ (toUpper_ascii c (hE c hc))))
    exact ⟨hl.symm, hl.trans hu.symm⟩
  · intro E
    have hl := flatMap_bracket_map cLocale Char.toLower E
      (fun c _ => bracket_toLower cLocale c ⟨rfl, rfl, rfl⟩ ⟨rfl, rfl, rfl⟩)
    have hu := flatMap_bracket_map cLocale Char.toUpper E
      (fun c _ => bracket_toUpper cLocale c ⟨rfl, rfl, rfl⟩ ⟨rfl, rfl, rfl⟩)
    exact ⟨hl.symm, hl.trans hu.symm⟩

/-- C13 (witness). In the C locale the token "Kicad_Pcb" is formatted as its lower
case and its upper case forms are. -/
theorem formatWildcardExt_gtk_case_blind_witness :
    (∀ c : Char, c.toNat < 128 → cLocale.wxIsalpha c = c.isAlpha
      ∧ cLocale.wxTolower c = c.toLower ∧ cLocale.wxToupper c = c.toUpper)
    ∧ (∀ c ∈ "Kicad_Pcb".toList, c.toNat < 128)
    ∧ formatWildcardExt cLocale true "Kicad_Pcb".toList
      = formatWildcardExt cLocale true ("Kicad_Pcb".toList.map Char.toLower)
    ∧ formatWildcardExt cLocale true ("Kicad_Pcb".toList.map Char.toLower)
      = formatWildcardExt cLocale true ("Kicad_Pcb".toList.map Char.toUpper) :=
  ⟨fun _ _ => ⟨rfl, rfl, rfl⟩, by decide,
    formatWildcardExt_gtk_case_blind.1 cLocale "Kicad_Pcb".toList
      (fun _ _ => ⟨rfl, rfl, rfl⟩) (by decide)⟩

/-- C13 (counterexample). In a Turkish locale the ASCII token "zip" is formatted
with GTK as "[zZ][iİ][pP]" and its upper case form "ZIP" as "[zZ][ıI][pP]":
the result depends on the letter case of the input. -/
theorem formatWildcardExt_gtk_turkish_case_matters :
    (∀ c ∈ "zip".toList, c.toNat < 128)
    ∧ "zip".toList.map Char.toUpper = "ZIP".toList
    ∧ formatWildcardExt turkishLocale true "zip".toList = "[zZ][iİ][pP]".toList
    ∧ formatWildcardExt turkishLocale true "ZIP".toList = "[zZ][ıI][pP]".toList
    ∧ formatWildcardExt turkishLocale true "zip".toList
      ≠ formatWildcardExt turkishLocale true ("zip".toList.map Char.toUpper) := by
  decide

/-- C14. GerberFileWildcard, the eighth accessor, is called with the single
extension "pho": with the identity localization its value is
"Gerber files ( *.pho)", "|" and the filter half "*.pho" without GTK, or
"*.[pP][hH][oO]" with GTK in the C locale; GerberFileExtension is "gbr",
which occurs in neither value. -/
theorem GerberFileWildcard_uses_pho :
    accessors[7]? = some GerberFileWildcard
    ∧ accessorCalls[7]? = some ⟨"Gerber files".toList, 1, ["pho".toList]⟩
    ∧ (∀ T : WxCType, GerberFileWildcard id T false
        = some ("Gerber files ( *.pho)".toList ++ '|' :: "*.pho".toList))
    ∧ GerberFileWildcard id cLocale true
        = some ("Gerber files ( *.pho)".toList ++ '|' :: "*.[pP][hH][oO]".toList)
    ∧ GerberFileExtension = "gbr".toList
    ∧ ¬ (GerberFileExtension <:+: "Gerber files ( *.pho)".toList ++ '|' :: "*.pho".toList)
    ∧ ¬ (GerberFileExtension
        <:+: "Gerber files ( *.pho)".toList ++ '|' :: "*.[pP][hH][oO]".toList) := by
  refine ⟨rfl, rfl, fun _ => rfl, by decide, rfl, by decide, by decide⟩

end KiCad
